import Mathlib

/-!
Verification of the supergateway transport-bridging gateway (Rust sources under
`src/rust/src`). Each Rust function relevant to the checked properties is
translated into an executable Lean definition; theorems below settle the
spec claims against those definitions.
-/

namespace Supergateway

/-- JSON values, modelling `serde_json::Value`. Numbers are modelled as
integers (`Int`), covering the integer ids JSON-RPC traffic uses in this
codebase. -/
inductive JVal where
  | null
  | bool (b : Bool)
  | num (n : Int)
  | str (s : String)
  | arr (elems : List JVal)
  | obj (fields : List (String × JVal))

/-- Association-list lookup keyed by strings, modelling `Map::get` /
`HashMap::get` (first binding wins; real maps have unique keys). -/
def alookup {α : Type} (k : String) : List (String × α) → Option α
  | [] => none
  | (k', v) :: rest => if k' = k then some v else alookup k rest

/-- `Value::get(key)` on a JSON object; `none` for non-objects. -/
def jget (v : JVal) (k : String) : Option JVal :=
  match v with
  | .obj fields => alookup k fields
  | _ => none

/-- `Value::as_str`. -/
def asStr : JVal → Option String
  | .str s => some s
  | _ => none

/-- `Value::as_i64` on the values of the model. -/
def asInt : JVal → Option Int
  | .num n => some n
  | _ => none

/-! ## Session access counter (support/session_access_counter.rs) -/

/-- One entry of `SessionAccessCounter.sessions`: `Active { count }` or
`Timeout { handle }` (the tokio `JoinHandle` carries no information the
claims need, so it is dropped). -/
inductive SessionState where
  | active (count : Nat)
  | timeout
deriving DecidableEq, Repr

/-- The three public operations of `SessionAccessCounter`. -/
inductive CounterOp where
  | inc
  | dec
  | clear
deriving DecidableEq, Repr

/-- Effect of one `inc` / `dec` / `clear` call on the entry of a fixed session
id (`none` = entry absent), translated from `SessionAccessCounter::inc`,
`::dec` and `::clear`. `dec` on `Active(0)` removes the entry (the Rust code
logs an error and returns after the `remove`); `dec` on `Active(n)` moves to
`Timeout` exactly when `n - 1 == 0`. -/
def counterStep (entry : Option SessionState) (op : CounterOp) : Option SessionState :=
  match op, entry with
  | .inc, none => some (.active 1)
  | .inc, some .timeout => some (.active 1)
  | .inc, some (.active count) => some (.active (count + 1))
  | .dec, none => none
  | .dec, some .timeout => some .timeout
  | .dec, some (.active count) =>
      if count = 0 then none
      else if count - 1 = 0 then some .timeout
      else some (.active (count - 1))
  | .clear, _ => none

/-- Entry of a fixed session id after a sequence of calls on that id, starting
from an absent entry (a fresh `SessionAccessCounter`). -/
def counterRun (ops : List CounterOp) : Option SessionState :=
  ops.foldl counterStep none

/-- The counter entry is never `Active 0` after any single step from a state
that is not `Active 0`. -/
theorem counterStep_ne_active_zero (entry : Option SessionState) (op : CounterOp)
    (h : entry ≠ some (.active 0)) : counterStep entry op ≠ some (.active 0) := by
  match op, entry with
  | .inc, none => simp [counterStep]
  | .inc, some .timeout => simp [counterStep]
  | .inc, some (.active n) => simp [counterStep]
  | .dec, none => simp [counterStep]
  | .dec, some .timeout => simp [counterStep]
  | .dec, some (.active n) =>
    simp only [counterStep]
    split
    · simp
    · split
      · simp
      · simp only [ne_eq, Option.some.injEq, SessionState.active.injEq]
        omega
  | .clear, _ => simp [counterStep]

theorem counterRun_ne_active_zero (ops : List CounterOp) :
    counterRun ops ≠ some (.active 0) := by
  suffices h : ∀ entry, entry ≠ some (SessionState.active 0) →
      ops.foldl counterStep entry ≠ some (.active 0) by
    exact h none (by simp)
  induction ops with
  | nil => intro entry h; simpa using h
  | cons op rest ih =>
    intro entry h
    exact ih (counterStep entry op) (counterStep_ne_active_zero entry op h)

/-- C6: for every finite sequence of inc/dec/clear calls on a session id, the
entry for that id is always absent, `Active n` with `n ≥ 1`, or `Timeout`; a
`Timeout` entry arises only by a `dec` transition from `Active 1`; `dec` on an
absent entry is a no-op and `dec` on a `Timeout` entry leaves it unchanged. -/
theorem sessionAccessCounter_invariant (ops : List CounterOp) :
    (counterRun ops = none ∨ (∃ n, 1 ≤ n ∧ counterRun ops = some (.active n)) ∨
      counterRun ops = some .timeout)
    ∧ (∀ entry op, counterStep entry op = some .timeout →
        entry ≠ some SessionState.timeout →
        op = .dec ∧ entry = some (.active 1))
    ∧ counterStep none .dec = none
    ∧ counterStep (some .timeout) .dec = some .timeout := by
  refine ⟨?_, ?_, rfl, rfl⟩
  · have h := counterRun_ne_active_zero ops
    match hs : counterRun ops with
    | none => exact Or.inl rfl
    | some .timeout => exact Or.inr (Or.inr rfl)
    | some (.active n) =>
      refine Or.inr (Or.inl ⟨n, ?_, rfl⟩)
      rw [hs] at h
      simp only [ne_eq, Option.some.injEq, SessionState.active.injEq] at h
      omega
  · intro entry op htime hnot
    match op, entry with
    | .inc, none => simp [counterStep] at htime
    | .inc, some .timeout => exact absurd rfl hnot
    | .inc, some (.active n) => simp [counterStep] at htime
    | .dec, none => simp [counterStep] at htime
    | .dec, some .timeout => exact absurd rfl hnot
    | .dec, some (.active n) =>
      refine ⟨rfl, ?_⟩
      simp only [counterStep] at htime
      split at htime
      · exact absurd htime (by simp)
      · split at htime
        · rename_i h0 h1
          have : n = 1 := by omega
          rw [this]
        · exact absurd htime (by simp)
    | .clear, _ => simp [counterStep] at htime

/-- Witness for `sessionAccessCounter_invariant`: the arise-only-from-`Active 1`
clause applied at the concrete transition `dec` on `Active 1`. -/
theorem sessionAccessCounter_invariant_witness :
    CounterOp.dec = CounterOp.dec ∧
      (some (SessionState.active 1) : Option SessionState) = some (.active 1) :=
  (sessionAccessCounter_invariant []).2.1 (some (.active 1)) .dec (by simp [counterStep])
    (by simp)

/-- C5 (code evaluated at the failing scenario): an initialize POST on the
stateful streamable-HTTP bridge performs, on the session's access counter, the
calls `inc` (create_session, "session initialization"), `inc` (stateful_post,
"POST request for existing session") and `dec` (stateful_post, "POST response
finished"). Afterwards the entry is `Active 1`, not `Timeout`, so no cleanup
timer is ever scheduled: with no further traffic the session is never removed
and a later POST with its `Mcp-Session-Id` does not get 400. -/
theorem statefulInitializePost_counter_stuck :
    counterRun [CounterOp.inc, CounterOp.inc, CounterOp.dec] = some (SessionState.active 1) ∧
      counterRun [CounterOp.inc, CounterOp.inc, CounterOp.dec] ≠ some SessionState.timeout := by
  constructor
  · rfl
  · simp [counterRun, counterStep]

/-! ## Runtime args (types.rs) and their store (runtime/store.rs) -/

/-- `RuntimeArgs` from types.rs; the two `HashMap<String, String>` fields are
modelled as association lists with unique keys. -/
structure RuntimeArgs where
  extra_cli_args : List String
  env : List (String × String)
  headers : List (String × String)
deriving DecidableEq, Repr

/-- `RuntimeArgs::default()`: all fields empty. -/
def defaultRuntimeArgs : RuntimeArgs := ⟨[], [], []⟩

/-- `HashMap::insert`: replace the binding of an existing key, else add one. -/
def mapInsert {α : Type} (m : List (String × α)) (k : String) (v : α) :
    List (String × α) :=
  match m with
  | [] => [(k, v)]
  | (k', v') :: rest =>
    if k' = k then (k', v) :: rest else (k', v') :: mapInsert rest k v

/-- `RuntimeArgs::merge` from types.rs: a non-empty overlay `extra_cli_args` is
*extended onto* the base vector (`Vec::extend`); non-empty overlay `env` and
`headers` are inserted entry by entry into clones of the base maps. -/
def RuntimeArgs.merge (base overlay : RuntimeArgs) : RuntimeArgs :=
  let extra :=
    if overlay.extra_cli_args.isEmpty then base.extra_cli_args
    else base.extra_cli_args ++ overlay.extra_cli_args
  let env :=
    if overlay.env.isEmpty then base.env
    else overlay.env.foldl (fun acc kv => mapInsert acc kv.1 kv.2) base.env
  let headers :=
    if overlay.headers.isEmpty then base.headers
    else overlay.headers.foldl (fun acc kv => mapInsert acc kv.1 kv.2) base.headers
  ⟨extra, env, headers⟩

/-- `RuntimeArgsStore::get_effective`: the global snapshot, merged with the
session's overlay when one exists. -/
def get_effective (global : RuntimeArgs) (sessions : List (String × RuntimeArgs))
    (session_id : Option String) : RuntimeArgs :=
  match session_id with
  | some id =>
    match alookup id sessions with
    | some overlay => RuntimeArgs.merge global overlay
    | none => global
  | none => global

/-- `RuntimeArgsUpdate` from runtime/store.rs. -/
structure RuntimeArgsUpdate where
  extra_cli_args : Option (List String)
  env : Option (List (String × String))
  headers : Option (List (String × String))

/-- `UpdateResult` from runtime/store.rs. -/
structure UpdateResult where
  restart_needed : Bool
  headers_changed : Bool
deriving DecidableEq, Repr

/-- The per-field body shared verbatim by `RuntimeArgsStore::update_global` and
`RuntimeArgsStore::update_session`: present fields replace the stored ones;
`extra_cli_args` and `env` set `restart_needed`, `headers` sets
`headers_changed`. -/
def applyUpdate (cur : RuntimeArgs) (u : RuntimeArgsUpdate) :
    RuntimeArgs × UpdateResult :=
  let result : UpdateResult := ⟨false, false⟩
  let step1 :=
    match u.extra_cli_args with
    | some extra => ({ cur with extra_cli_args := extra },
        { result with restart_needed := true })
    | none => (cur, result)
  let step2 :=
    match u.env with
    | some env => ({ step1.1 with env := env }, { step1.2 with restart_needed := true })
    | none => step1
  match u.headers with
  | some hs => ({ step2.1 with headers := hs }, { step2.2 with headers_changed := true })
  | none => step2

/-- `RuntimeArgsStore::update_global`. -/
def update_global (global : RuntimeArgs) (u : RuntimeArgsUpdate) :
    RuntimeArgs × UpdateResult :=
  applyUpdate global u

/-- `RuntimeArgsStore::update_session`: the overlay entry is created with
`Default::default()` when absent (`entry(..).or_default()`), then updated with
the same per-field logic. -/
def update_session (sessions : List (String × RuntimeArgs)) (session_id : String)
    (u : RuntimeArgsUpdate) : List (String × RuntimeArgs) × UpdateResult :=
  let entry := (alookup session_id sessions).getD defaultRuntimeArgs
  let updated := applyUpdate entry u
  (mapInsert sessions session_id updated.1, updated.2)

theorem alookup_mapInsert {α : Type} (m : List (String × α)) (k k₁ : String) (v₁ : α) :
    alookup k (mapInsert m k₁ v₁) = if k₁ = k then some v₁ else alookup k m := by
  induction m with
  | nil => simp [mapInsert, alookup]
  | cons hd tl ih =>
    obtain ⟨k', v'⟩ := hd
    by_cases h1 : k' = k₁
    · subst h1
      by_cases h2 : k' = k <;> simp [mapInsert, alookup, h2]
    · by_cases h2 : k' = k
      · subst h2
        have : ¬ k₁ = k' := fun h => h1 h.symm
        simp [mapInsert, alookup, h1, this]
      · simp [mapInsert, alookup, h1, h2, ih]

theorem alookup_eq_none_of_not_mem {α : Type} (l : List (String × α)) (k : String)
    (h : k ∉ l.map Prod.fst) : alookup k l = none := by
  induction l with
  | nil => rfl
  | cons hd tl ih =>
    obtain ⟨k', v'⟩ := hd
    simp only [List.map_cons, List.mem_cons] at h
    push_neg at h
    have hne : ¬ k' = k := fun he => h.1 he.symm
    simp [alookup, hne, ih h.2]

theorem alookup_foldl_mapInsert {α : Type} (l : List (String × α))
    (hnd : (l.map Prod.fst).Nodup) (m : List (String × α)) (k : String) :
    alookup k (l.foldl (fun acc kv => mapInsert acc kv.1 kv.2) m) =
      (alookup k l).or (alookup k m) := by
  induction l generalizing m with
  | nil => simp [alookup]
  | cons hd tl ih =>
    obtain ⟨k₁, v₁⟩ := hd
    simp only [List.map_cons, List.nodup_cons] at hnd
    rw [List.foldl_cons, ih hnd.2, alookup_mapInsert]
    by_cases hk : k₁ = k
    · subst hk
      have : alookup k₁ tl = none :=
        alookup_eq_none_of_not_mem tl k₁ hnd.1
      simp [alookup, this]
    · simp [alookup, hk]

/-- C2 counterexample: `RuntimeArgs::merge` appends a non-empty overlay
`extra_cli_args` onto the base (`["a"] ++ ["b"] = ["a", "b"]`); the overlay's
sequence does not replace the base's, contrary to the claim. -/
theorem runtimeArgs_merge_append_counterexample :
    (RuntimeArgs.merge ⟨["a"], [], []⟩ ⟨["b"], [], []⟩).extra_cli_args = ["a", "b"] ∧
      (RuntimeArgs.merge ⟨["a"], [], []⟩ ⟨["b"], [], []⟩).extra_cli_args ≠ ["b"] := by
  exact ⟨rfl, by decide⟩

/-- C2 amended: the merge used by `get_effective` yields `extra_cli_args` equal
to the base's sequence with the overlay's appended (replacement does not
happen), `env` equal to the base's with the overlay's entries overriding per
key, `headers` likewise; for a session id with no overlay, `get_effective`
returns the global snapshot unchanged. -/
theorem runtimeArgs_merge_semantics (base overlay global : RuntimeArgs)
    (sessions : List (String × RuntimeArgs)) (id k : String)
    (henv : (overlay.env.map Prod.fst).Nodup)
    (hhdr : (overlay.headers.map Prod.fst).Nodup) :
    (RuntimeArgs.merge base overlay).extra_cli_args
        = base.extra_cli_args ++ overlay.extra_cli_args
    ∧ alookup k (RuntimeArgs.merge base overlay).env
        = (alookup k overlay.env).or (alookup k base.env)
    ∧ alookup k (RuntimeArgs.merge base overlay).headers
        = (alookup k overlay.headers).or (alookup k base.headers)
    ∧ (alookup id sessions = none → get_effective global sessions (some id) = global)
    ∧ get_effective global sessions none = global := by
  refine ⟨?_, ?_, ?_, ?_, rfl⟩
  · simp only [RuntimeArgs.merge]
    split
    · rename_i h
      rw [List.isEmpty_iff.mp h, List.append_nil]
    · rfl
  · simp only [RuntimeArgs.merge]
    split
    · rename_i h
      rw [List.isEmpty_iff.mp h]
      simp [alookup]
    · exact alookup_foldl_mapInsert overlay.env henv base.env k
  · simp only [RuntimeArgs.merge]
    split
    · rename_i h
      rw [List.isEmpty_iff.mp h]
      simp [alookup]
    · exact alookup_foldl_mapInsert overlay.headers hhdr base.headers k
  · intro h
    simp [get_effective, h]

/-- Witness for `runtimeArgs_merge_semantics` at concrete inputs: the
no-overlay clause of `get_effective` evaluated on an empty overlay map. -/
theorem runtimeArgs_merge_semantics_witness :
    get_effective ⟨["g"], [], []⟩ [] (some "s") = ⟨["g"], [], []⟩ :=
  (runtimeArgs_merge_semantics defaultRuntimeArgs defaultRuntimeArgs ⟨["g"], [], []⟩
    [] "s" "x" (by simp [defaultRuntimeArgs]) (by simp [defaultRuntimeArgs])).2.2.2.1 rfl

/-- C10: for every update applied through the store, `restart_needed` is true
exactly when the update carries an `extra_cli_args` or an `env` field (no
comparison with the stored value is made), `headers_changed` is true exactly
when it carries a `headers` field, absent fields leave the stored fields
unchanged, and `update_session` applies the same logic to the (possibly
freshly defaulted) overlay entry. -/
theorem runtime_update_flags_and_fields (global : RuntimeArgs)
    (sessions : List (String × RuntimeArgs)) (id : String) (u : RuntimeArgsUpdate) :
    (update_global global u).2.restart_needed
        = (u.extra_cli_args.isSome || u.env.isSome)
    ∧ (update_global global u).2.headers_changed = u.headers.isSome
    ∧ (update_global global u).1.extra_cli_args
        = u.extra_cli_args.getD global.extra_cli_args
    ∧ (update_global global u).1.env = u.env.getD global.env
    ∧ (update_global global u).1.headers = u.headers.getD global.headers
    ∧ (update_session sessions id u).2
        = (update_global ((alookup id sessions).getD defaultRuntimeArgs) u).2
    ∧ alookup id (update_session sessions id u).1
        = some (update_global ((alookup id sessions).getD defaultRuntimeArgs) u).1 := by
  obtain ⟨oe, ov, oh⟩ := u
  refine ⟨?_, ?_, ?_, ?_, ?_, ?_, ?_⟩ <;>
    cases oe <;> cases ov <;> cases oh <;>
      simp [update_global, update_session, applyUpdate, alookup_mapInsert]

/-! ## Decimal rendering and i64 parsing (used by the stdio→WS id round trip
and by the JSON rendering of `serde_json::Value`) -/

/-- Digits of `n`, most significant first, with an accumulator and explicit
fuel so that evaluation is structural; mirrors the decimal `Display` of Rust
integers. -/
def natDigitsGo : Nat → Nat → List Char → List Char
  | 0, _, acc => acc
  | fuel + 1, n, acc =>
    if n < 10 then Nat.digitChar n :: acc
    else natDigitsGo fuel (n / 10) (Nat.digitChar (n % 10) :: acc)

def natDigits (n : Nat) : List Char := natDigitsGo (n + 1) n []

/-- Decimal rendering of an `i64` value (`format!("{n}")`). -/
def renderInt (n : Int) : List Char :=
  if n < 0 then '-' :: natDigits n.natAbs else natDigits n.natAbs

def digitVal (c : Char) : Nat := c.toNat - 48

def decodeDigits (l : List Char) : Nat :=
  l.foldl (fun a c => a * 10 + digitVal c) 0

def i64MaxNat : Nat := 2 ^ 63 - 1

/-- The digits-only part of `str::parse::<i64>()`: at least one character and
every character a decimal digit. -/
def parseDigits (l : List Char) : Option Nat :=
  match l with
  | [] => none
  | _ => if l.all Char.isDigit then some (decodeDigits l) else none

/-- `str::parse::<i64>()`: optional `+`/`-` sign, at least one digit, nothing
but digits, and a value within the `i64` range (otherwise overflow `Err`). -/
def parseI64 (s : List Char) : Option Int :=
  match s with
  | [] => none
  | c :: rest =>
    if c = '+' then
      (parseDigits rest).bind fun v =>
        if v ≤ i64MaxNat then some (v : Int) else none
    else if c = '-' then
      (parseDigits rest).bind fun v =>
        if v ≤ 2 ^ 63 then some (-(v : Int)) else none
    else
      (parseDigits (c :: rest)).bind fun v =>
        if v ≤ i64MaxNat then some (v : Int) else none

theorem natDigitsGo_fuel (n : Nat) : ∀ fuel acc, n < fuel →
    natDigitsGo fuel n acc = natDigits n ++ acc := by
  induction n using Nat.strong_induction_on with
  | _ n ih =>
    intro fuel acc hf
    obtain ⟨f, rfl⟩ : ∃ f, fuel = f + 1 := ⟨fuel - 1, by omega⟩
    by_cases h : n < 10
    · simp [natDigitsGo, natDigits, h]
    · have hdiv : n / 10 < n := by omega
      calc natDigitsGo (f + 1) n acc
          = natDigitsGo f (n / 10) (Nat.digitChar (n % 10) :: acc) := by
            simp [natDigitsGo, h]
        _ = natDigits (n / 10) ++ (Nat.digitChar (n % 10) :: acc) :=
            ih (n / 10) hdiv f _ (by omega)
        _ = natDigits n ++ acc := by
            show _ = natDigitsGo (n + 1) n [] ++ acc
            have hstep : natDigitsGo (n + 1) n [] =
                natDigitsGo n (n / 10) [Nat.digitChar (n % 10)] := by
              simp [natDigitsGo, h]
            rw [hstep, ih (n / 10) hdiv n [Nat.digitChar (n % 10)] (by omega)]
            simp

/-- Peel one decimal digit off `natDigits`. -/
theorem natDigits_eq (n : Nat) :
    natDigits n = if n < 10 then [Nat.digitChar n]
      else natDigits (n / 10) ++ [Nat.digitChar (n % 10)] := by
  by_cases h : n < 10
  · simp [natDigits, natDigitsGo, h]
  · rw [if_neg h]
    show natDigitsGo (n + 1) n [] = _
    have hstep : natDigitsGo (n + 1) n [] =
        natDigitsGo n (n / 10) [Nat.digitChar (n % 10)] := by
      simp [natDigitsGo, h]
    rw [hstep, natDigitsGo_fuel (n / 10) n [Nat.digitChar (n % 10)] (by omega)]

theorem digitChar_spec (d : Nat) (h : d < 10) :
    digitVal (Nat.digitChar d) = d ∧ (Nat.digitChar d).isDigit = true := by
  interval_cases d <;> exact ⟨by decide, by decide⟩

theorem decodeDigits_append_singleton (xs : List Char) (c : Char) :
    decodeDigits (xs ++ [c]) = 10 * decodeDigits xs + digitVal c := by
  simp [decodeDigits, List.foldl_append]
  ring

theorem natDigits_spec (n : Nat) :
    decodeDigits (natDigits n) = n ∧ (∀ c ∈ natDigits n, c.isDigit = true) ∧
      natDigits n ≠ [] := by
  induction n using Nat.strong_induction_on with
  | _ n ih =>
    rw [natDigits_eq n]
    by_cases h : n < 10
    · refine ⟨?_, ?_, by simp [h]⟩
      · simp [h, decodeDigits, (digitChar_spec n h).1]
      · simp only [if_pos h, List.mem_singleton]
        intro c hc
        rw [hc]
        exact (digitChar_spec n h).2
    · have hdiv : n / 10 < n := Nat.div_lt_self (by omega) (by omega)
      obtain ⟨ihdec, ihdig, _⟩ := ih (n / 10) hdiv
      refine ⟨?_, ?_, by simp [h]⟩
      · rw [if_neg h, decodeDigits_append_singleton, ihdec,
          (digitChar_spec (n % 10) (Nat.mod_lt n (by omega))).1]
        omega
      · simp only [if_neg h, List.mem_append, List.mem_singleton]
        intro c hc
        rcases hc with hc | hc
        · exact ihdig c hc
        · rw [hc]
          exact (digitChar_spec (n % 10) (Nat.mod_lt n (by omega))).2

theorem isDigit_ne (c : Char) (h : c.isDigit = true) :
    c ≠ ':' ∧ c ≠ '+' ∧ c ≠ '-' := by
  refine ⟨?_, ?_, ?_⟩ <;> intro he <;> rw [he] at h <;> simp [Char.isDigit] at h

theorem parseDigits_natDigits (m : Nat) : parseDigits (natDigits m) = some m := by
  obtain ⟨hdec, hdig, hne⟩ := natDigits_spec m
  match hl : natDigits m with
  | [] => exact absurd hl hne
  | c :: rest =>
    rw [hl] at hdec hdig
    simp only [parseDigits]
    rw [if_pos (by simpa [List.all_eq_true] using hdig), hdec]

/-- Rendering an `i64` value and parsing it back is the identity. -/
theorem parseI64_renderInt (n : Int) (h1 : -(2 ^ 63) ≤ n) (h2 : n < 2 ^ 63) :
    parseI64 (renderInt n) = some n := by
  by_cases hn : n < 0
  · have hm : n.natAbs ≤ 2 ^ 63 := by omega
    simp only [renderInt, if_pos hn, parseI64]
    rw [if_pos trivial, parseDigits_natDigits]
    simp only [Option.some_bind]
    rw [if_pos hm]
    refine congrArg some ?_
    omega
  · have hm : n.natAbs ≤ i64MaxNat := by
      simp only [i64MaxNat]
      omega
    obtain ⟨hdec, hdig, hne⟩ := natDigits_spec n.natAbs
    simp only [renderInt, if_neg hn]
    cases hl : natDigits n.natAbs with
    | nil => exact absurd hl hne
    | cons c rest =>
      have hc : c.isDigit = true := by
        rw [hl] at hdig
        exact hdig c (List.mem_cons_self c rest)
      obtain ⟨-, hplus, hminus⟩ := isDigit_ne c hc
      simp only [parseI64, if_neg hplus, if_neg hminus]
      rw [← hl, parseDigits_natDigits]
      simp only [Option.some_bind]
      rw [if_pos hm]
      simp only [Option.some.injEq]
      omega

/-! ## JSON rendering (`serde_json::Value::to_string`) -/

/-- JSON string escaping as serde_json emits it: `\"`, `\\`, the short control
escapes, and lowercase `\u00XX` for the remaining control characters. -/
def escapeChar (c : Char) : List Char :=
  if c = '"' then ['\\', '"']
  else if c = '\\' then ['\\', '\\']
  else if c = Char.ofNat 8 then ['\\', 'b']
  else if c = Char.ofNat 12 then ['\\', 'f']
  else if c = '\n' then ['\\', 'n']
  else if c = '\r' then ['\\', 'r']
  else if c = '\t' then ['\\', 't']
  else if c.toNat < 32 then
    ['\\', 'u', '0', '0', Nat.digitChar (c.toNat / 16), Nat.digitChar (c.toNat % 16)]
  else [c]

def renderStringLit (s : String) : List Char :=
  '"' :: (s.data.map escapeChar).flatten ++ ['"']

mutual

/-- `serde_json::Value::to_string()` (compact form, no spaces). -/
def renderJVal : JVal → List Char
  | .null => "null".data
  | .bool true => "true".data
  | .bool false => "false".data
  | .num n => renderInt n
  | .str s => renderStringLit s
  | .arr elems => Char.ofNat 91 :: renderJValList elems ++ [Char.ofNat 93]
  | .obj fields => Char.ofNat 123 :: renderJValFields fields ++ [Char.ofNat 125]

def renderJValList : List JVal → List Char
  | [] => []
  | [v] => renderJVal v
  | v :: rest => renderJVal v ++ ',' :: renderJValList rest

def renderJValFields : List (String × JVal) → List Char
  | [] => []
  | [(k, v)] => renderStringLit k ++ ':' :: renderJVal v
  | (k, v) :: rest => renderStringLit k ++ ':' :: renderJVal v ++ ',' :: renderJValFields rest

end

/-! ## stdio→WS id prefixing (gateways/stdio_to_ws.rs) -/

/-- `prefix_id` from stdio_to_ws.rs: builds the string
`"<clientId>:<originalId>"`, rendering a string id verbatim, a numeric id in
decimal, and any other id as its JSON text. -/
def prefix_id (clientId : String) (id : JVal) : JVal :=
  match id with
  | .str s => .str ⟨clientId.data ++ ':' :: s.data⟩
  | .num n => .str ⟨clientId.data ++ ':' :: renderInt n⟩
  | other => .str ⟨clientId.data ++ ':' :: renderJVal other⟩

/-- `str::splitn(2, ':')` viewed through the two `parts.next()?` calls of
`strip_prefixed_id`: `some (before, after)` for the first colon, `none` when
the string has no colon (the second `next()` yields `None`). -/
def splitFirstColon : List Char → Option (List Char × List Char)
  | [] => none
  | c :: rest =>
    if c = ':' then some ([], rest)
    else (splitFirstColon rest).map (fun p => (c :: p.1, p.2))

/-- `strip_prefixed_id` from stdio_to_ws.rs: a child message whose `id` is a
string of the form `"<client>:<raw>"` yields the client name and the raw id,
re-typed as a number when `raw` parses as an `i64` and as a string
otherwise. -/
def strip_prefixed_id (message : JVal) : Option (String × JVal) :=
  (jget message "id").bind fun idVal =>
    (asStr idVal).bind fun idStr =>
      match splitFirstColon idStr.data with
      | none => none
      | some (client, raw) =>
        let rawId := match parseI64 raw with
          | some k => JVal.num k
          | none => JVal.str ⟨raw⟩
        some (⟨client⟩, rawId)

theorem splitFirstColon_append (a : List Char) (b : List Char) (ha : ':' ∉ a) :
    splitFirstColon (a ++ ':' :: b) = some (a, b) := by
  induction a with
  | nil => simp [splitFirstColon]
  | cons c rest ih =>
    simp only [List.mem_cons] at ha
    push_neg at ha
    have hc : ¬ c = ':' := fun h => ha.1 h.symm
    simp [splitFirstColon, hc, ih ha.2]

theorem splitFirstColon_of_not_mem (l : List Char) (h : ':' ∉ l) :
    splitFirstColon l = none := by
  induction l with
  | nil => rfl
  | cons c rest ih =>
    simp only [List.mem_cons] at h
    push_neg at h
    have hc : ¬ c = ':' := fun he => h.1 he.symm
    simp [splitFirstColon, hc, ih h.2]

theorem renderInt_no_colon (n : Int) : ':' ∉ renderInt n := by
  have hd := (natDigits_spec n.natAbs).2.1
  simp only [renderInt]
  split
  · intro hmem
    rcases List.mem_cons.mp hmem with h | h
    · exact absurd h (by decide)
    · exact absurd (hd ':' h) (by decide)
  · intro hmem
    exact absurd (hd ':' hmem) (by decide)

/-- C3 counterexample: a client sends the string id `"2"`; `prefix_id` turns it
into `"c:2"` and `strip_prefixed_id` on the child's echo re-types it as the
JSON number `2`, so the id comes back as a number, not as the string the
client sent. -/
theorem ws_id_roundtrip_counterexample :
    strip_prefixed_id (.obj [("id", prefix_id "c" (.str "2"))])
        = some ("c", .num 2)
    ∧ JVal.num 2 ≠ JVal.str "2" :=
  ⟨rfl, fun h => JVal.noConfusion h⟩

/-- C3 amended: for every colon-free client id, prefixing then stripping
recovers the client and: an integer id in the `i64` range comes back as the
same number; a string id comes back unchanged as a string when it does not
parse as an `i64`; a string id that parses as an `i64` comes back as the
parsed number (same decimal value, different JSON type). -/
theorem ws_id_roundtrip_semantics (clientId : String) (s : String) (n : Int)
    (hc : ':' ∉ clientId.data) (h1 : -(2 ^ 63) ≤ n) (h2 : n < 2 ^ 63) :
    strip_prefixed_id (.obj [("id", prefix_id clientId (.num n))])
        = some (clientId, .num n)
    ∧ (parseI64 s.data = none →
        strip_prefixed_id (.obj [("id", prefix_id clientId (.str s))])
          = some (clientId, .str s))
    ∧ (∀ k, parseI64 s.data = some k →
        strip_prefixed_id (.obj [("id", prefix_id clientId (.str s))])
          = some (clientId, .num k)) := by
  refine ⟨?_, ?_, ?_⟩
  · simp only [strip_prefixed_id, prefix_id, jget, alookup, if_true, asStr,
      Option.some_bind]
    rw [splitFirstColon_append clientId.data (renderInt n) hc]
    simp only [parseI64_renderInt n h1 h2]
  · intro hparse
    simp only [strip_prefixed_id, prefix_id, jget, alookup, if_true, asStr,
      Option.some_bind]
    rw [splitFirstColon_append clientId.data s.data hc]
    simp only [hparse]
  · intro k hparse
    simp only [strip_prefixed_id, prefix_id, jget, alookup, if_true, asStr,
      Option.some_bind]
    rw [splitFirstColon_append clientId.data s.data hc]
    simp only [hparse]

/-- Witness for `ws_id_roundtrip_semantics`: concrete client `"client"`,
string id `"abc"` (which does not parse as an i64) round-trips unchanged. -/
theorem ws_id_roundtrip_semantics_witness :
    strip_prefixed_id (.obj [("id", prefix_id "client" (.str "abc"))])
        = some ("client", .str "abc") :=
  (ws_id_roundtrip_semantics "client" "abc" 7 (by decide) (by decide) (by decide)).2.1
    rfl

/-! ## stdio→WS child fan-out (gateways/stdio_to_ws.rs, run) -/

/-- `Map::insert("id", v)` on a message object; non-objects are forwarded
unchanged (`as_object_mut` yields nothing). -/
def setId (msg : JVal) (v : JVal) : JVal :=
  match msg with
  | .obj fields => .obj (mapInsert fields "id" v)
  | other => other

/-- Routing decision of the child fan-out task. -/
inductive FanOut where
  | targeted (clientId : String) (outgoing : JVal)
  | broadcastAll (outgoing : JVal)

/-- The per-message body of the child fan-out task in stdio_to_ws.rs `run`:
if `strip_prefixed_id` matches, the message (with its id rewritten back) is
addressed to that client only; otherwise it is broadcast. -/
def childFanOut (msg : JVal) : FanOut :=
  match strip_prefixed_id msg with
  | some (client, rawId) => .targeted client (setId msg rawId)
  | none => .broadcastAll msg

/-- Recipients of a fan-out decision among the currently connected client
ids: a targeted message goes to its client when connected and to nobody
otherwise; a broadcast goes to every client. -/
def deliverTo (connected : List String) (f : FanOut) : List String :=
  match f with
  | .targeted c _ => if connected.contains c then [c] else []
  | .broadcastAll _ => connected

/-- C9: a child message whose id is a string containing a colon is targeted at
the client named before the first colon — delivered to it alone when
connected and to no client at all otherwise; messages with no id, a
non-string id, or a colon-free string id are broadcast to all clients. -/
theorem ws_child_fanout_targeting (msg : JVal) (connected : List String)
    (s : String) (client rest : List Char) :
    ((jget msg "id").bind asStr = some s → s.data = client ++ ':' :: rest →
      ':' ∉ client →
        deliverTo connected (childFanOut msg)
          = if connected.contains (⟨client⟩ : String) then [(⟨client⟩ : String)]
            else [])
    ∧ ((jget msg "id").bind asStr = some s → ':' ∉ s.data →
        childFanOut msg = .broadcastAll msg)
    ∧ ((jget msg "id").bind asStr = none → childFanOut msg = .broadcastAll msg)
    ∧ deliverTo connected (FanOut.broadcastAll msg) = connected := by
  refine ⟨?_, ?_, ?_, rfl⟩
  · intro hid hsplit hnc
    obtain ⟨idVal, hidv, hstr⟩ : ∃ v, jget msg "id" = some v ∧ asStr v = some s := by
      cases hj : jget msg "id" with
      | none => rw [hj] at hid; simp at hid
      | some v =>
        rw [hj] at hid
        simp only [Option.some_bind] at hid
        exact ⟨v, rfl, hid⟩
    have hstrip : strip_prefixed_id msg
        = some (⟨client⟩, match parseI64 rest with
            | some k => JVal.num k
            | none => JVal.str ⟨rest⟩) := by
      simp only [strip_prefixed_id, hidv, Option.some_bind, hstr, hsplit,
        splitFirstColon_append client rest hnc]
    simp only [childFanOut, hstrip, deliverTo]
  · intro hid hno
    obtain ⟨idVal, hidv, hstr⟩ : ∃ v, jget msg "id" = some v ∧ asStr v = some s := by
      cases hj : jget msg "id" with
      | none => rw [hj] at hid; simp at hid
      | some v =>
        rw [hj] at hid
        simp only [Option.some_bind] at hid
        exact ⟨v, rfl, hid⟩
    have hstrip : strip_prefixed_id msg = none := by
      simp only [strip_prefixed_id, hidv, Option.some_bind, hstr,
        splitFirstColon_of_not_mem s.data hno]
    simp only [childFanOut, hstrip]
  · intro hid
    have hstrip : strip_prefixed_id msg = none := by
      cases hj : jget msg "id" with
      | none => simp only [strip_prefixed_id, hj, Option.none_bind]
      | some v =>
        rw [hj] at hid
        simp only [Option.some_bind] at hid
        simp only [strip_prefixed_id, hj, Option.some_bind, hid, Option.none_bind]
    simp only [childFanOut, hstrip]

/-- Witness for `ws_child_fanout_targeting`: the concrete child message with
id `"cl:9"` is delivered to the connected client `"cl"` only. -/
theorem ws_child_fanout_targeting_witness :
    deliverTo ["cl"] (childFanOut (.obj [("id", .str "cl:9")]))
      = if List.contains ["cl"] (⟨['c', 'l']⟩ : String)
        then [(⟨['c', 'l']⟩ : String)] else [] :=
  (ws_child_fanout_targeting (.obj [("id", .str "cl:9")]) ["cl"] "cl:9"
    ['c', 'l'] ['9']).1 rfl rfl (by decide)

/-! ## Stateful streamable-HTTP session routing
(gateways/stdio_to_streamable_http.rs) -/

theorem renderJVal_num (n : Int) : renderJVal (.num n) = renderInt n := by
  simp [renderJVal]

/-- Destination of a child message inside a stateful session. -/
inductive Route where
  | toSink (key : String)
  | broadcastNotif

/-- Key under which `Session::request` registers its one-shot sink: the string
itself for a string id, otherwise the JSON text of the id
(`message.get("id").unwrap().to_string()`); `none` models the panic when the
message carries no id (the bridge only calls `request` when one is there). -/
def requestKey (message : JVal) : Option String :=
  match jget message "id" with
  | none => none
  | some idVal =>
    match asStr idVal with
    | some s => some s
    | none => some ⟨renderJVal idVal⟩

/-- Routing decision of `Session::start_routing` for one child message, given
the keys currently registered in `pending`: only a *string* id
(`msg.get("id").and_then(|v| v.as_str())`) is looked up; on a hit the message
goes to that one-shot sink, otherwise it is published to the notifications
broadcaster. -/
def routeChild (pending : List String) (msg : JVal) : Route :=
  match (jget msg "id").bind asStr with
  | some s => if pending.contains s then .toSink s else .broadcastNotif
  | none => .broadcastNotif

/-- C1 counterexample: a POST body with the JSON *number* id `2` registers its
sink under the key `"2"`, but the child's response bearing the number id `2`
is routed to the notifications broadcaster, not to the sink, because the
routing task only matches string ids. -/
theorem session_request_numeric_id_counterexample :
    requestKey (.obj [("jsonrpc", .str "2.0"), ("id", .num 2), ("method", .str "ping")])
        = some "2"
    ∧ routeChild ["2"]
        (.obj [("jsonrpc", .str "2.0"), ("id", .num 2), ("result", .str "pong")])
        = .broadcastNotif
    ∧ Route.broadcastNotif ≠ Route.toSink "2" := by
  refine ⟨?_, rfl, fun h => Route.noConfusion h⟩
  show some (⟨renderJVal (.num 2)⟩ : String) = some "2"
  rw [renderJVal_num 2]
  decide

/-- C1 amended: `session.request` registers the sink keyed by the message's id
(the string itself for a string id, its JSON text for a numeric id) and writes
the message to the child; a child response with a *string* id equal to a
registered key is delivered to that sink, while any child response with a
numeric id — including the response to a numeric-id request — is published to
the notifications broadcaster and never delivered to a sink. -/
theorem session_routing_string_ids_only (pending : List String) (msg : JVal)
    (s : String) (n : Int) :
    (jget msg "id" = some (.str s) → pending.contains s = true →
        routeChild pending msg = .toSink s)
    ∧ (jget msg "id" = some (.str s) → pending.contains s = false →
        routeChild pending msg = .broadcastNotif)
    ∧ (jget msg "id" = some (.num n) → routeChild pending msg = .broadcastNotif)
    ∧ (jget msg "id" = some (.str s) → requestKey msg = some s)
    ∧ (jget msg "id" = some (.num n) → requestKey msg = some ⟨renderInt n⟩) := by
  refine ⟨?_, ?_, ?_, ?_, ?_⟩
  · intro h1 h2
    simp [routeChild, h1, asStr, h2]
    simpa using h2
  · intro h1 h2
    simp [routeChild, h1, asStr, h2]
    simpa using h2
  · intro h
    simp [routeChild, h, asStr]
  · intro h
    simp [requestKey, h, asStr]
  · intro h
    simp [requestKey, h, asStr, renderJVal_num]

/-- Witness for `session_routing_string_ids_only`: a response with the string
id `"7"` registered in `pending` is delivered to the sink. -/
theorem session_routing_string_ids_only_witness :
    routeChild ["7"] (.obj [("id", .str "7")]) = .toSink "7" :=
  (session_routing_string_ids_only ["7"] (.obj [("id", .str "7")]) "7" 0).1 rfl rfl

/-! ## Stateful POST session selection (stdio_to_streamable_http.rs) -/

/-- `is_initialize_request` (same body in stdio_to_streamable_http.rs,
sse_to_stdio.rs and streamable_http_to_stdio.rs). -/
def is_initialize_request (msg : JVal) : Bool :=
  match (jget msg "method").bind asStr with
  | some m => m = "initialize"
  | none => false

/-- Outcome of the session-selection step of `stateful_post`. -/
inductive PostDispatch where
  | useSession (id : String)
  | createSession
  | reject (status : Nat) (code : Int) (message : String)

/-- Session selection of `stateful_post`: a present `Mcp-Session-Id` header is
looked up among the known sessions and any miss is a 400 Bad Request whatever
the body; with no header, an `initialize` body creates a new session and
anything else is the same 400. -/
def statefulPostDispatch (sessionHeader : Option String) (known : List String)
    (payload : JVal) : PostDispatch :=
  match sessionHeader with
  | some id =>
    if known.contains id then .useSession id
    else .reject 400 (-32000) "Bad Request: No valid session ID provided"
  | none =>
    if is_initialize_request payload then .createSession
    else .reject 400 (-32000) "Bad Request: No valid session ID provided"

/-- C7: a matching `Mcp-Session-Id` header selects that session; an unknown
header value is rejected with 400 / -32000 / "Bad Request: No valid session ID
provided" regardless of the body; without the header, an `initialize` body
creates a session and any other body is rejected the same way. -/
theorem stateful_post_dispatch_semantics (sessionHeader : Option String)
    (known : List String) (payload : JVal) (id : String) :
    (sessionHeader = some id → id ∈ known →
        statefulPostDispatch sessionHeader known payload = .useSession id)
    ∧ (sessionHeader = some id → id ∉ known →
        statefulPostDispatch sessionHeader known payload
          = .reject 400 (-32000) "Bad Request: No valid session ID provided")
    ∧ (sessionHeader = none → is_initialize_request payload = true →
        statefulPostDispatch sessionHeader known payload = .createSession)
    ∧ (sessionHeader = none → is_initialize_request payload = false →
        statefulPostDispatch sessionHeader known payload
          = .reject 400 (-32000) "Bad Request: No valid session ID provided") := by
  refine ⟨?_, ?_, ?_, ?_⟩ <;> intro h1 h2 <;> simp [statefulPostDispatch, h1, h2]

/-- Witness for `stateful_post_dispatch_semantics`: a known session id in the
header is used. -/
theorem stateful_post_dispatch_semantics_witness :
    statefulPostDispatch (some "sid") ["sid"] (.obj []) = .useSession "sid" :=
  (stateful_post_dispatch_semantics (some "sid") ["sid"] (.obj []) "sid").1 rfl
    (by decide)

/-! ## Upstream error normalization (sse_to_stdio.rs; identical code in
streamable_http_to_stdio.rs) -/

/-- The prefix `format!("MCP error {code}:")`. -/
def mcpErrorPrefix (code : Int) : List Char :=
  "MCP error ".data ++ renderInt code ++ [':']

/-- Rust `str::trim`: whitespace removed from both ends. -/
def trimChars (l : List Char) : List Char :=
  ((l.dropWhile Char.isWhitespace).reverse.dropWhile Char.isWhitespace).reverse

/-- `normalize_error_message`: strip a leading `"MCP error <code>:"` built
from the response's own code and trim the remainder; other messages pass
through unchanged. -/
def normalize_error_message (code : Int) (message : String) : String :=
  let pfx := mcpErrorPrefix code
  if pfx.isPrefixOf message.data then ⟨trimChars (message.data.drop pfx.length)⟩
  else message

/-- `wrap_response`: JSON-RPC response echoing the request's `jsonrpc` and
`id`; an error payload with an integer `code` and string `message` is
re-emitted with the same code and the normalized message. -/
def wrap_response (req payload : JVal) : JVal :=
  let jsonrpc := (jget req "jsonrpc").getD (.str "2.0")
  let id := (jget req "id").getD .null
  let base := [("jsonrpc", jsonrpc), ("id", id)]
  match jget payload "error" with
  | some error =>
    match (jget error "code").bind asInt with
    | some code =>
      let message := ((jget error "message").bind asStr).getD "Internal error"
      .obj (base ++ [("error", .obj [("code", .num code),
        ("message", .str (normalize_error_message code message))])])
    | none => .obj (base ++ [("error", error)])
  | none =>
    match jget payload "result" with
    | some result => .obj (base ++ [("result", result)])
    | none => .obj base

theorem isPrefixOf_append_self (p r : List Char) : p.isPrefixOf (p ++ r) = true := by
  induction p with
  | nil => simp [List.isPrefixOf]
  | cons c t ih => simp [List.isPrefixOf, ih]

/-- C8: an upstream error with integer code `c` and message `m` is wrapped
with the same code `c`; the emitted message is `m` with the leading
`"MCP error <c>:"` stripped and the remainder trimmed of surrounding
whitespace when `m` starts with that exact prefix, and `m` unchanged
otherwise. -/
theorem normalize_error_message_spec (code : Int) (m rest : String)
    (req payload error : JVal) :
    (m.data = mcpErrorPrefix code ++ rest.data →
        normalize_error_message code m = ⟨trimChars rest.data⟩)
    ∧ ((mcpErrorPrefix code).isPrefixOf m.data = false →
        normalize_error_message code m = m)
    ∧ (jget payload "error" = some error →
        jget error "code" = some (.num code) →
        jget error "message" = some (.str m) →
        jget (wrap_response req payload) "error"
          = some (.obj [("code", .num code),
              ("message", .str (normalize_error_message code m))])) := by
  refine ⟨?_, ?_, ?_⟩
  · intro h
    simp [normalize_error_message, h, isPrefixOf_append_self, List.drop_left]
  · intro h
    simp [normalize_error_message, h]
  · intro h1 h2 h3
    simp only [wrap_response]
    rw [h1]
    simp only [h2, Option.some_bind, asInt]
    simp only [h3, Option.some_bind, asStr, Option.getD_some]
    simp [jget, alookup]

/-- Witness for `normalize_error_message_spec`: the concrete upstream message
`"MCP error -32000: boom"` with code `-32000` normalizes to `"boom"`. -/
theorem normalize_error_message_spec_witness :
    normalize_error_message (-32000) "MCP error -32000: boom" = "boom" := by
  have h := (normalize_error_message_spec (-32000) "MCP error -32000: boom" " boom"
    JVal.null JVal.null JVal.null).1 (by decide)
  exact h.trans (by decide)

/-! ## Auto-handshake shim (sse_to_stdio.rs, streamable_http_to_stdio.rs)
and the stateless streamable-HTTP request loop
(stdio_to_streamable_http.rs, handle_stateless_request) -/

theorem renderJVal_str (s : String) : renderJVal (.str s) = renderStringLit s := by
  simp [renderJVal]

/-- `create_initialized_notification` (identical in all three files). -/
def create_initialized_notification : JVal :=
  .obj [("jsonrpc", .str "2.0"), ("method", .str "notifications/initialized")]

/-- What the sse→stdio / streamableHttp→stdio request loop does right after
receiving the upstream reply to its synthesized initialize: on an error
payload, wrap it against the *client's* message and answer with that (the
`continue` skips both `notifications/initialized` and the original request);
otherwise proceed with the handshake. -/
inductive ShimOutcome where
  | respondWrapped (response : JVal)
  | proceed

def shimAfterInit (message initPayload : JVal) : ShimOutcome :=
  if (jget initPayload "error").isSome then
    .respondWrapped (wrap_response message initPayload)
  else .proceed

/-- `str::trim_matches('"')`: all leading and trailing double quotes
removed. -/
def trimQuotes (l : List Char) : List Char :=
  ((l.dropWhile (· = '"')).reverse.dropWhile (· = '"')).reverse

/-- Loop state of `handle_stateless_request` while reading child stdout:
the synthesized initialize id (if the auto-handshake is in flight), the
client's original request (if still to be replayed), and the JSON text of the
client's request id. -/
structure StatelessLoopState where
  autoInitId : Option (List Char)
  pendingOriginal : Option JVal
  originalId : Option (List Char)

/-- What `handle_stateless_request` does with one parsed child stdout line. -/
inductive StatelessAction where
  | writeAndContinue (writes : List JVal) (next : StatelessLoopState)
  | finish (response : JVal)
  | skip

/-- One iteration of the stdout loop of `handle_stateless_request`
(stdio_to_streamable_http.rs:611-651): a message whose id (after stripping
quotes from its JSON text) equals the pending auto-init id makes the handler
write `notifications/initialized` and the stored original request to the
child — with no look at the message's `error` field — and clear the shim
state; otherwise a message whose id text equals the original id finishes the
request with that message; anything else is skipped. -/
def statelessOnChildLine (st : StatelessLoopState) (msg : JVal) : StatelessAction :=
  match jget msg "id" with
  | none => .skip
  | some idVal =>
    let idText := renderJVal idVal
    let checkOriginal : StatelessAction :=
      match st.originalId with
      | some target => if idText = target then .finish msg else .skip
      | none => .skip
    match st.autoInitId with
    | some auto =>
      if trimQuotes idText = auto then
        .writeAndContinue
          (create_initialized_notification ::
            (match st.pendingOriginal with
             | some original => [original]
             | none => []))
          { autoInitId := none, pendingOriginal := none,
            originalId := st.originalId }
      else checkOriginal
    | none => checkOriginal

/-- C4 counterexample: in the stateless streamable-HTTP bridge, the child's
*error* response to the synthesized initialize (id `"init_1"`) makes the
handler send `notifications/initialized` and forward the original request
anyway — the error is neither wrapped nor returned, contrary to the claim
that every shim-applying bridge aborts the handshake on an initialize
error. -/
theorem stateless_shim_ignores_init_error :
    (jget (JVal.obj [("jsonrpc", .str "2.0"), ("id", .str "init_1"),
        ("error", .obj [("code", .num (-32000)), ("message", .str "init failed")])])
      "error").isSome = true
    ∧ statelessOnChildLine
        { autoInitId := some "init_1".data,
          pendingOriginal := some (.obj [("jsonrpc", .str "2.0"), ("id", .str "a"),
            ("method", .str "tools/list")]),
          originalId := some ['"', 'a', '"'] }
        (.obj [("jsonrpc", .str "2.0"), ("id", .str "init_1"),
          ("error", .obj [("code", .num (-32000)), ("message", .str "init failed")])])
      = .writeAndContinue
          [create_initialized_notification,
            .obj [("jsonrpc", .str "2.0"), ("id", .str "a"),
              ("method", .str "tools/list")]]
          { autoInitId := none, pendingOriginal := none,
            originalId := some ['"', 'a', '"'] } := by
  refine ⟨rfl, ?_⟩
  have h1 : jget (JVal.obj [("jsonrpc", .str "2.0"), ("id", .str "init_1"),
      ("error", .obj [("code", .num (-32000)), ("message", .str "init failed")])])
      "id" = some (JVal.str "init_1") := rfl
  simp only [statelessOnChildLine, h1]
  rw [renderJVal_str]
  rfl

/-- C4 amended: in sse→stdio and streamableHttp→stdio, an error response to
the synthesized initialize is wrapped into a JSON-RPC response echoing the
client's request id and returned, without `notifications/initialized` and
without forwarding the original request (and a non-error reply proceeds); in
the stateless streamable-HTTP bridge, the reply matching the synthesized id —
error or not — makes the shim send `notifications/initialized` and forward
the original request, and the initialize error is never returned to the
client. -/
theorem auto_handshake_init_error_semantics (message initPayload msg idVal orig : JVal)
    (st : StatelessLoopState) (auto : List Char) :
    ((jget initPayload "error").isSome = true →
        shimAfterInit message initPayload
          = .respondWrapped (wrap_response message initPayload))
    ∧ ((jget initPayload "error").isSome = false →
        shimAfterInit message initPayload = .proceed)
    ∧ jget (wrap_response message initPayload) "id"
        = some ((jget message "id").getD JVal.null)
    ∧ (st.autoInitId = some auto → st.pendingOriginal = some orig →
        jget msg "id" = some idVal → trimQuotes (renderJVal idVal) = auto →
        statelessOnChildLine st msg
          = .writeAndContinue [create_initialized_notification, orig]
              { autoInitId := none, pendingOriginal := none,
                originalId := st.originalId }) := by
  refine ⟨?_, ?_, ?_, ?_⟩
  · intro h
    simp [shimAfterInit, h]
  · intro h
    simp [shimAfterInit, h]
  · simp only [wrap_response]
    split
    · split
      · simp [jget, alookup]
      · simp [jget, alookup]
    · split
      · simp [jget, alookup]
      · simp [jget, alookup]
  · intro hauto horig hid htrim
    simp only [statelessOnChildLine, hid, hauto, horig, htrim, if_true]

/-- Witness for `auto_handshake_init_error_semantics`: a concrete error reply
to the synthesized initialize is wrapped and returned in sse→stdio. -/
theorem auto_handshake_init_error_semantics_witness :
    shimAfterInit (.obj [("id", .str "a")])
        (.obj [("error", .obj [("code", .num (-32000)), ("message", .str "x")])])
      = .respondWrapped (wrap_response (.obj [("id", .str "a")])
          (.obj [("error", .obj [("code", .num (-32000)), ("message", .str "x")])])) :=
  (auto_handshake_init_error_semantics (.obj [("id", .str "a")])
    (.obj [("error", .obj [("code", .num (-32000)), ("message", .str "x")])])
    JVal.null JVal.null JVal.null ⟨none, none, none⟩ []).1 rfl

end Supergateway
